import Mathlib

/-!
Shallow embedding of the bb_tracking feature/training code
(`bb_tracking/features.py` and `bb_tracking/training/detection_data_generation.py`).

Numeric values are modelled over the real numbers.  Places where the Python
code manipulates IEEE-754 special values (NaN as the "unspecified default
argument" sentinel, NaN/inf produced by division) are modelled explicitly:
optional norm arguments become `Option Real` (the `np.isnan(norm)` sentinel
check) and float results that can be non-finite are values of the `FV` type
below.
-/

namespace BBTracking

/-- Detection type tag, an enumeration consumed as given data
(`types.DetectionType` with members TaggedBee, UntaggedBee, BeeOnGlass,
BeeInCell). -/
inductive DetectionType where
  | TaggedBee
  | UntaggedBee
  | BeeOnGlass
  | BeeInCell
deriving DecidableEq

/-- Modelled from the spec: the Detection record type (defined in the
out-of-scope `types` module).  Fields are the ones the code under `src/`
reads: hive coordinates, pixel coordinates, orientation (radians), POSIX
timestamp, detection type, optional identity-bit probability vector,
optional localizer saliency, frame id and within-frame detection index.
The datetime-valued `timestamp` field is identified with `timestamp_posix`
(it is only ever stored, never computed with). -/
structure Detection where
  x_hive : ℝ
  y_hive : ℝ
  orientation_hive : ℝ
  timestamp_posix : ℝ
  x_pixels : Option ℝ
  y_pixels : Option ℝ
  frame_id : Nat
  detection_index : Nat
  detection_type : DetectionType
  bit_probabilities : Option (List ℝ)
  localizer_saliency : Option ℝ

/-- A placeholder detection used to model Python list indexing (`[-1]`,
`[idx]`) which the source performs under the data-model invariant that the
lists involved are nonempty / long enough.  It is never reached by any
theorem below. -/
def defaultDetection : Detection :=
  { x_hive := 0, y_hive := 0, orientation_hive := 0, timestamp_posix := 0,
    x_pixels := none, y_pixels := none, frame_id := 0, detection_index := 0,
    detection_type := DetectionType.TaggedBee, bit_probabilities := none,
    localizer_saliency := none }

instance : Inhabited Detection := ⟨defaultDetection⟩

/-- Modelled from the spec: the Track/Tracklet record (out-of-scope `types`
module): ordered detections plus parallel timestamp/frame-id sequences and
identity metadata.  The mutable memoization dictionary `cache_` is not
modelled: no claim below depends on a cached aggregate, and the cache never
changes the value a memoized function returns (it only avoids
recomputation). -/
structure Track where
  id : Nat
  cam_id : Nat
  detections : List Detection
  timestamps : List ℝ
  frame_ids : List Nat
  bee_id : Option Nat
  bee_id_confidence : Option ℝ

/-- Python `l[-n:]` on a list. -/
def takeLastN (n : Nat) (l : List α) : List α := l.drop (l.length - n)

/-- A float value as produced by the numpy arithmetic in the source:
either a finite real, one of the infinities, the NaN sentinel, or the
Python `None` object (which the source stores in feature tuples for absent
localizer saliencies). -/
inductive FV where
  | nan
  | inf
  | ninf
  | none_
  | fin (x : ℝ)

/-- The comparison `v > c` for a float value `v` against a finite float
`c`, with IEEE semantics: any comparison with NaN is false.  Comparing the
Python `None` object with a float would raise TypeError; that case is
unreachable where this comparison is used (the first feature component is
never `None`) and is modelled as `False`. -/
def FV.gtReal : FV → ℝ → Prop
  | .nan, _ => False
  | .inf, _ => True
  | .ninf, _ => False
  | .none_, _ => False
  | .fin x, c => c < x

/-- IEEE float division of a finite numerator by a finite denominator:
`e / 0` is NaN when `e = 0`, `+inf` when `e > 0` and `-inf` when `e < 0`;
otherwise the finite quotient. -/
noncomputable def fvDiv (e t : ℝ) : FV :=
  if t = 0 then (if e = 0 then .nan else if 0 < e then .inf else .ninf)
  else .fin (e / t)

/-- `detection_temporal_distance`: signed timestamp difference. -/
def detection_temporal_distance (d0 d1 : Detection) : ℝ :=
  d1.timestamp_posix - d0.timestamp_posix

/-- `euclidean_distance`. -/
noncomputable def euclidean_distance (x0 y0 x1 y1 : ℝ) : ℝ :=
  Real.sqrt ((x1 - x0) ^ 2 + (y1 - y0) ^ 2)

/-- `detection_distance(detection0, detection1, norm=np.nan)`: Euclidean
distance of the hive coordinates divided by `norm`; the NaN default for
`norm` (modelled as `none`) selects the signed temporal distance.  The
division is the IEEE float division `fvDiv`. -/
noncomputable def detection_distance (d0 d1 : Detection) (norm : Option ℝ) : FV :=
  let n := match norm with
    | none => detection_temporal_distance d0 d1
    | some x => x
  fvDiv (euclidean_distance d0.x_hive d0.y_hive d1.x_hive d1.y_hive) n

/-- Python float modulus `a % b` (for `b > 0`): `a - b * floor (a / b)`. -/
noncomputable def pymod (a b : ℝ) : ℝ := a - b * ⌊a / b⌋

/-- `short_angle_dist(a0, a1)`: `da = (a1 - a0) % (2*pi)`, then
`(2*da) % (2*pi) - da`. -/
noncomputable def short_angle_dist (a0 a1 : ℝ) : ℝ :=
  let m := 2 * Real.pi
  let da := pymod (a1 - a0) m
  pymod (2 * da) m - da

/-- The numerator of `angular_distance`: `diff = abs((a0 - a1) % (2*pi))`,
subtract `2*pi` when `diff >= pi`, then take the absolute value (the final
division by `norm` is factored out so that the detection-level wrapper can
perform it as an IEEE division). -/
noncomputable def angular_difference_folded (a0 a1 : ℝ) : ℝ :=
  let diff := |pymod (a0 - a1) (2 * Real.pi)|
  |if Real.pi ≤ diff then diff - 2 * Real.pi else diff|

/-- `angular_distance(a0, a1, norm)`. -/
noncomputable def angular_distance (a0 a1 norm : ℝ) : ℝ :=
  angular_difference_folded a0 a1 / norm

/-- `detection_angular_distance(detection0, detection1, norm=np.nan)`. -/
noncomputable def detection_angular_distance (d0 d1 : Detection) (norm : Option ℝ) : FV :=
  let n := match norm with
    | none => detection_temporal_distance d0 d1
    | some x => x
  fvDiv (angular_difference_folded d0.orientation_hive d1.orientation_hive) n

/-- `calculate_forward_motion`: projects the motion vector scaled by
`1 / norm` onto the two heading unit vectors and takes the smaller
projection.  With real (non-NaN) inputs and a nonzero norm both dot
products are finite reals, so the `np.isnan` / `np.nanmin` logic of the
source reduces to a plain minimum; a zero norm makes numpy produce
non-finite values, modelled as NaN (no claim depends on that case). -/
noncomputable def calculate_forward_motion (x0 y0 a0 x1 y1 a1 norm : ℝ) : FV :=
  if norm = 0 then .nan
  else
    .fin (min (Real.sin a0 * ((x1 - x0) / norm) + Real.cos a0 * ((y1 - y0) / norm))
              (Real.sin a1 * ((x1 - x0) / norm) + Real.cos a1 * ((y1 - y0) / norm)))

/-- `detection_forward_motion(detection0, detection1, norm=np.nan)`. -/
noncomputable def detection_forward_motion (d0 d1 : Detection) (norm : Option ℝ) : FV :=
  let n := match norm with
    | none => detection_temporal_distance d0 d1
    | some x => x
  calculate_forward_motion d0.x_hive d0.y_hive d0.orientation_hive
    d1.x_hive d1.y_hive d1.orientation_hive n

/-- Arithmetic mean of a list (`np.mean`); numpy returns NaN for an empty
array, a case never reached by the callers below (bit vectors are
nonempty). -/
noncomputable def listMean (l : List ℝ) : ℝ := l.sum / l.length

/-- `bitwise_distance(bits0, bits1, fun)`: NaN when either bit vector is
absent, otherwise `fun` applied to the elementwise absolute differences.
The two vectors have equal length by the data-model invariant (numpy would
raise a broadcasting error otherwise), so the elementwise difference is
modelled with `zip`.  The `assert not np.any(np.isnan(...))` preconditions
hold trivially here because bits are real numbers. -/
noncomputable def bitwise_distance (bits0 bits1 : Option (List ℝ)) (f : List ℝ → ℝ) : FV :=
  match bits0, bits1 with
  | none, none => .nan
  | none, some _ => .nan
  | some _, none => .nan
  | some b0, some b1 => .fin (f ((b0.zip b1).map (fun p => |p.1 - p.2|)))

/-- `bitwise_manhattan_distance`. -/
noncomputable def bitwise_manhattan_distance (bits0 bits1 : Option (List ℝ)) : FV :=
  bitwise_distance bits0 bits1 listMean

/-- `detection_id_distance`. -/
noncomputable def detection_id_distance (d0 d1 : Detection) : FV :=
  bitwise_manhattan_distance d0.bit_probabilities d1.bit_probabilities

/-- `detection_type_to_index`. -/
def detection_type_to_index : DetectionType → Nat
  | .TaggedBee => 0
  | .UntaggedBee => 1
  | .BeeOnGlass => 2
  | .BeeInCell => 3

/-- `get_detection_confidence`: NaN when the detection has no identity
bits, otherwise `2 * mean |bits - 0.5|`. -/
noncomputable def get_detection_confidence (d : Detection) : FV :=
  match d.bit_probabilities with
  | none => .nan
  | some bits => .fin (2 * listMean (bits.map (fun b => |b - 0.5|)))

/-- `detection_confidences` (a pair in the source; a two-element list here
so the feature tuples can be concatenated). -/
noncomputable def detection_confidences (d0 d1 : Detection) : List FV :=
  [get_detection_confidence d0, get_detection_confidence d1]

/-- A localizer saliency slot of a feature tuple: the source stores the
raw attribute, which is either a float or the Python `None` object. -/
def fvOfOpt : Option ℝ → FV
  | none => .none_
  | some x => .fin x

/-- `detection_localizer_saliencies`. -/
def detection_localizer_saliencies (d0 d1 : Detection) : List FV :=
  [fvOfOpt d0.localizer_saliency, fvOfOpt d1.localizer_saliency]

/-- One bucket of the detection-type composition histogram: the fraction
of detections in `ds` whose type has index `i`.  (`ds` is nonempty at
every call site; Python would raise ZeroDivisionError otherwise.) -/
noncomputable def type_fraction (ds : List Detection) (i : Nat) : ℝ :=
  ((ds.filter (fun d => decide (detection_type_to_index d.detection_type = i))).length : ℝ)
    / (ds.length : ℝ)

/-- The per-side 4-bucket type histogram (the `values[4*track_idx + i]`
loop of the source, one side at a time). -/
noncomputable def type_fraction_histogram (ds : List Detection) : List ℝ :=
  [type_fraction ds 0, type_fraction ds 1, type_fraction ds 2, type_fraction ds 3]

/-- `detection_track_type_changes_mask(tracklet0, detection1)`: the 8-value
histogram over the last five detections of the tracklet and the single
candidate detection. -/
noncomputable def detection_track_type_changes_mask (tracklet0 : Track) (detection1 : Detection) : List FV :=
  (type_fraction_histogram (takeLastN 5 tracklet0.detections)
    ++ type_fraction_histogram [detection1]).map FV.fin

/-- `is_valid_detection_pair_combination` from
`training/detection_data_generation.py`: rejects tag/no-tag, glass/cell
and glass/tag transitions. -/
def is_valid_detection_pair_combination (det next_det : Detection) : Bool :=
  if (det.detection_type = DetectionType.TaggedBee ∧ next_det.detection_type = DetectionType.UntaggedBee)
      ∨ (det.detection_type = DetectionType.UntaggedBee ∧ next_det.detection_type = DetectionType.TaggedBee) then
    false
  else if (det.detection_type = DetectionType.BeeOnGlass ∧ next_det.detection_type = DetectionType.BeeInCell)
      ∨ (det.detection_type = DetectionType.BeeInCell ∧ next_det.detection_type = DetectionType.BeeOnGlass) then
    false
  else if (det.detection_type = DetectionType.BeeOnGlass ∧ next_det.detection_type = DetectionType.TaggedBee)
      ∨ (det.detection_type = DetectionType.TaggedBee ∧ next_det.detection_type = DetectionType.BeeOnGlass) then
    false
  else
    true

/-- Python `float(b)` on a bool. -/
def boolFloat (b : Bool) : ℝ := if b then 1 else 0

/-- `extrapolate_position_and_angles(x0, y0, a0, x1, y1, a1, factor)`. -/
noncomputable def extrapolate_position_and_angles (x0 y0 a0 x1 y1 a1 factor : ℝ) : ℝ × ℝ × ℝ :=
  (x1 + (x1 - x0) * factor,
   y1 + (y1 - y0) * factor,
   a1 + short_angle_dist a0 a1 * factor)

/-- `extrapolate_detections(seconds, *detections)`: with a single detection
it is returned unchanged, with two the position/orientation are linearly
extrapolated by `factor = seconds / temporal_distance`.  The callers only
ever pass one or two detections (`tracklet.detections[-2:]`); more than two
would raise TypeError in the source and an empty list IndexError, so those
cases use the first two detections / a placeholder.  The extrapolation
factor is a real division; the degenerate zero temporal distance (an IEEE
non-finite factor in numpy) is not relied upon by any theorem below.  The
synthetic detection keeps the second detection type and the shifted
timestamp and leaves the remaining fields unset as the source does. -/
noncomputable def extrapolate_detections (seconds : ℝ) (detections : List Detection) : Detection :=
  match detections with
  | [] => defaultDetection
  | [d] => d
  | d0 :: d1 :: _ =>
    let seconds_distance := detection_temporal_distance d0 d1
    let extrapolation_factor := seconds / seconds_distance
    let p := extrapolate_position_and_angles d0.x_hive d0.y_hive d0.orientation_hive
               d1.x_hive d1.y_hive d1.orientation_hive extrapolation_factor
    { x_hive := p.1, y_hive := p.2.1, orientation_hive := p.2.2,
      timestamp_posix := d1.timestamp_posix + seconds,
      x_pixels := none, y_pixels := none,
      frame_id := 0, detection_index := 0,
      detection_type := d1.detection_type,
      bit_probabilities := none, localizer_saliency := none }

/-- `track_forward_distance(tracklet0, detection1, seconds_distance=np.nan)`:
extrapolate over the last two detections of the tracklet and take the raw
(norm = 1) distance to the candidate. -/
noncomputable def track_forward_distance (tracklet0 : Track) (detection1 : Detection)
    (seconds_distance : Option ℝ) : FV :=
  let s := match seconds_distance with
    | none => detection_temporal_distance (tracklet0.detections.getLastD defaultDetection) detection1
    | some x => x
  detection_distance (extrapolate_detections s (takeLastN 2 tracklet0.detections)) detection1 (some 1)

/-- `get_detection_features(tracklet0, detection1)`: the flat feature tuple,
modelled as a list so its arity is a plain list length. -/
noncomputable def get_detection_features (tracklet0 : Track) (detection1 : Detection) : List FV :=
  let detection0 := tracklet0.detections.getLastD defaultDetection
  [detection_distance detection0 detection1 none,
   detection_angular_distance detection0 detection1 none,
   detection_id_distance detection0 detection1,
   detection_forward_motion detection0 detection1 none,
   track_forward_distance tracklet0 detection1 none,
   FV.fin (boolFloat (is_valid_detection_pair_combination detection0 detection1))]
  ++ detection_confidences detection0 detection1
  ++ detection_localizer_saliencies detection0 detection1
  ++ detection_track_type_changes_mask tracklet0 detection1

open Classical in
/-- `detection_id_match(detection0, detection1)`: 1.0 when both bit vectors
are absent, 0.0 when exactly one is, otherwise 0.0 exactly when some bit
pair disagrees across the 0.5 threshold (`((bits0 > 0.5) ^ (bits1 > 0.5)).sum() > 0`).
The max-bit-distance rule that follows the unconditional `return 1.0` in
the source is unreachable and is not modelled. -/
noncomputable def detection_id_match (d0 d1 : Detection) : ℝ :=
  match d0.bit_probabilities, d1.bit_probabilities with
  | none, none => 1.0
  | none, some _ => 0.0
  | some _, none => 0.0
  | some b0, some b1 =>
    if ∃ p ∈ b0.zip b1, ¬((0.5 : ℝ) < p.1 ↔ (0.5 : ℝ) < p.2) then 0.0 else 1.0

/-- `detection_id_match_cost`. -/
noncomputable def detection_id_match_cost (d0 d1 : Detection) : ℝ :=
  1.0 - detection_id_match d0 d1

/-- Bit vectors of the tagged detections of a tracklet (the list
comprehension shared by the three tracklet aggregates).  Tagged detections
carry bit vectors by the data-model invariant; a hypothetical tagged
detection without bits contributes the empty vector. -/
def trackTaggedBits (tracklet : Track) : List (List ℝ) :=
  (tracklet.detections.filter
    (fun d => decide (d.detection_type = DetectionType.TaggedBee))).map
    (fun d => d.bit_probabilities.getD [])

/-- Insertion step of an ascending insertion sort over the reals, used to
model `np.median` sorting. -/
noncomputable def insertAsc (x : ℝ) : List ℝ → List ℝ
  | [] => [x]
  | y :: ys => if x ≤ y then x :: y :: ys else y :: insertAsc x ys

/-- Ascending sort of a list of reals. -/
noncomputable def sortAsc (l : List ℝ) : List ℝ := l.foldr insertAsc []

/-- `np.median` of a one-dimensional array: middle element of the sorted
values for odd length, average of the two middle elements for even
length. -/
noncomputable def npMedian (l : List ℝ) : ℝ :=
  let s := sortAsc l
  if l.length % 2 = 1 then s.getD (l.length / 2) 0
  else (s.getD (l.length / 2 - 1) 0 + s.getD (l.length / 2) 0) / 2

/-- `np.median(rows, axis=0)`: columnwise median of a matrix given as a
list of equal-length rows. -/
noncomputable def columnwiseMedian (rows : List (List ℝ)) : List ℝ :=
  (List.range (rows.headD []).length).map
    (fun j => npMedian (rows.map (fun r => r.getD j 0)))

/-- `track_median_id(tracklet)` (the memoization through `cache_` is
omitted; it does not change the returned value). -/
noncomputable def track_median_id (tracklet : Track) : Option (List ℝ) :=
  let tracklet_bits := trackTaggedBits tracklet
  if tracklet_bits.length = 0 then none
  else some (columnwiseMedian tracklet_bits)

/-- Insertion step of the descending sort on (confidence, row) pairs used
to model `np.argsort(confidences)[::-1]` row selection in
`track_stable_id`.  Ordering among equal confidences may differ from
numpy argsort tie order; no claim depends on it. -/
noncomputable def insertConfDesc (x : ℝ × List ℝ) :
    List (ℝ × List ℝ) → List (ℝ × List ℝ)
  | [] => [x]
  | y :: ys => if y.1 < x.1 then x :: y :: ys else y :: insertConfDesc x ys

/-- Descending sort on (confidence, row) pairs. -/
noncomputable def sortConfDesc (l : List (ℝ × List ℝ)) : List (ℝ × List ℝ) :=
  l.foldr insertConfDesc []

/-- `track_stable_id(tracklet)`: columnwise median over the
`N = max(5, count // 10)` most confident tagged bit vectors, confidence of
a row being `mean(log1p(2 * |bits - 0.5|))` (memoization omitted as for
`track_median_id`). -/
noncomputable def track_stable_id (tracklet : Track) : Option (List ℝ) :=
  let tracklet_bits := trackTaggedBits tracklet
  if tracklet_bits.length = 0 then none
  else
    let confidences := tracklet_bits.map
      (fun row => listMean (row.map (fun b => Real.log (1 + |b - 0.5| * 2))))
    let N := max 5 (tracklet_bits.length / 10)
    let good_bits := ((sortConfDesc (confidences.zip tracklet_bits)).take N).map Prod.snd
    some (columnwiseMedian good_bits)

/-- `track_median_id_distance`. -/
noncomputable def track_median_id_distance (tracklet0 tracklet1 : Track) : FV :=
  bitwise_manhattan_distance (track_median_id tracklet0) (track_median_id tracklet1)

/-- `track_stable_id_distance`. -/
noncomputable def track_stable_id_distance (tracklet0 tracklet1 : Track) : FV :=
  bitwise_manhattan_distance (track_stable_id tracklet0) (track_stable_id tracklet1)

/-- `track_distance(tracklet0, tracklet1, norm=np.nan)`. -/
noncomputable def track_distance (tracklet0 tracklet1 : Track) (norm : Option ℝ) : FV :=
  detection_distance (tracklet0.detections.getLastD defaultDetection)
    (tracklet1.detections.headD defaultDetection) norm

/-- `np.min` of a list of reals (empty arrays raise in numpy; the caller
guards against them). -/
noncomputable def listMin : List ℝ → ℝ
  | [] => 0
  | x :: xs => xs.foldl min x

/-- `track_decoder_confidence(tracklet)`: the minimum over bits of
`|median - 0.5|`, or the concrete default 0.0 when the tracklet has no
tagged detections (memoization omitted). -/
noncomputable def track_decoder_confidence (tracklet : Track) : ℝ :=
  let bits := trackTaggedBits tracklet
  if bits.length ≠ 0 then
    listMin ((columnwiseMedian bits).map (fun b => |b - 0.5|))
  else 0.0

/-- `track_difference_of_confidence`. -/
noncomputable def track_difference_of_confidence (tracklet0 tracklet1 : Track) : ℝ :=
  |track_decoder_confidence tracklet0 - track_decoder_confidence tracklet1|

/-- `track_type_changes_mask(tracklet0, tracklet1)`: the 8-value histogram
over the last five detections of the first tracklet and the first five of
the second. -/
noncomputable def track_type_changes_mask (tracklet0 tracklet1 : Track) : List FV :=
  (type_fraction_histogram (takeLastN 5 tracklet0.detections)
    ++ type_fraction_histogram (tracklet1.detections.take 5)).map FV.fin

/-- `get_track_features(tracklet0, tracklet1)` (the `seconds_distance`
local of the source is computed and never used, so it is dropped here). -/
noncomputable def get_track_features (tracklet0 tracklet1 : Track) : List FV :=
  let last0 := tracklet0.detections.getLastD defaultDetection
  let first1 := tracklet1.detections.headD defaultDetection
  [FV.fin (boolFloat (is_valid_detection_pair_combination last0 first1)),
   track_distance tracklet0 tracklet1 (some 1),
   track_median_id_distance tracklet0 tracklet1,
   track_stable_id_distance tracklet0 tracklet1,
   detection_id_distance last0 first1,
   FV.fin (track_difference_of_confidence tracklet0 tracklet1)]
  ++ track_type_changes_mask tracklet0 tracklet1

/-- `cdist` with the Euclidean metric over rows of two-dimensional points
(the semantics of `scipy.spatial.distance.cdist` on the first two
coordinate columns). -/
noncomputable def cdist_euclidean (ps qs : List (ℝ × ℝ)) : List (List ℝ) :=
  ps.map (fun p => qs.map (fun q => Real.sqrt ((p.1 - q.1) ^ 2 + (p.2 - q.2) ^ 2)))

/-- `temporal_distance_vectorized(t0, t1)`: the matrix with entries
`t1[j] - t0[i]`, written index-based as the numba fill loop does (the
float32 storage of the source is modelled as exact reals). -/
noncomputable def temporal_distance_vectorized (t0 t1 : List ℝ) : List (List ℝ) :=
  (List.range t0.length).map
    (fun i => (List.range t1.length).map (fun j => t1.getD j 0 - t0.getD i 0))

/-- `detection_raw_distance_vectorized(detections_left, detections_right)`:
stack the (x, y, t) coordinate rows of both detection lists, then take the
pairwise Euclidean distances of the xy-columns and the pairwise signed
temporal distances of the t-column. -/
noncomputable def detection_raw_distance_vectorized (detections_left detections_right : List Detection) :
    List (List ℝ) × List (List ℝ) :=
  let coordinates_left := detections_left.map (fun d => (d.x_hive, d.y_hive, d.timestamp_posix))
  let coordinates_right := detections_right.map (fun d => (d.x_hive, d.y_hive, d.timestamp_posix))
  (cdist_euclidean (coordinates_left.map (fun c => (c.1, c.2.1)))
     (coordinates_right.map (fun c => (c.1, c.2.1))),
   temporal_distance_vectorized (coordinates_left.map (fun c => c.2.2))
     (coordinates_right.map (fun c => c.2.2)))

/-- `are_same_detections(d0, d1)`: equality of frame id, detection type and
within-frame index. -/
def are_same_detections (d0 d1 : Detection) : Bool :=
  decide (d0.frame_id = d1.frame_id ∧ d0.detection_type = d1.detection_type
    ∧ d0.detection_index = d1.detection_index)

/-- The debug tuple attached to every produced sample: source frame and
detection identifiers and pixel coordinates of both detections. -/
structure DebugInfo where
  src_frame_id : Nat
  src_detection_index : Nat
  src_x_pixels : Option ℝ
  src_y_pixels : Option ℝ
  other_detection_index : Nat
  other_x_pixels : Option ℝ
  other_y_pixels : Option ℝ

/-- One labeled sample of the produced dataset: feature vector, label
(1 = true follow-up, 0 = distractor candidate) and the debug tuple. -/
structure Sample where
  features : List FV
  label : Nat
  debug : DebugInfo

/-- The debug tuple for a (source detection, other detection) pair. -/
def debugOf (detection other : Detection) : DebugInfo :=
  { src_frame_id := detection.frame_id,
    src_detection_index := detection.detection_index,
    src_x_pixels := detection.x_pixels,
    src_y_pixels := detection.y_pixels,
    other_detection_index := other.detection_index,
    other_x_pixels := other.x_pixels,
    other_y_pixels := other.y_pixels }

/-- The tracklet truncated to only its most recent detection (the
`_replace(detections=...[-1:], ...)` of the decay loop). -/
def truncate_to_last (tracklet : Track) : Track :=
  { tracklet with
    detections := takeLastN 1 tracklet.detections,
    timestamps := takeLastN 1 tracklet.timestamps,
    frame_ids := takeLastN 1 tracklet.frame_ids }

open Classical in
/-- One iteration of the decay loop of
`generate_detection_features_for_frame`: an optional positive sample for
the true follow-up, then one negative sample per candidate that is not the
follow-up and whose first feature component does not exceed the hard
limit (`detection_features[0] > distance_per_second_hard_limit` skips,
with IEEE comparison semantics). -/
noncomputable def detection_features_iteration (tracklet : Track)
    (follow_up_detection : Option Detection) (candidate_detections : List Detection)
    (distance_per_second_hard_limit : ℝ) (detection : Detection) : List Sample :=
  (match follow_up_detection with
   | some f => [⟨get_detection_features tracklet f, 1, debugOf detection f⟩]
   | none => []) ++
  candidate_detections.filterMap (fun candidate =>
    if (match follow_up_detection with
        | some f => are_same_detections candidate f
        | none => false) then none
    else
      let detection_features := get_detection_features tracklet candidate
      if FV.gtReal (detection_features.headD FV.nan) distance_per_second_hard_limit then none
      else some ⟨detection_features, 0, debugOf detection candidate⟩)

/-- `generate_detection_features_for_frame(tracklet, follow_up_detection,
candidate_detections, distance_per_second_hard_limit)`: the two decay
depths (full history, then truncated to the single most recent detection),
with the debug source detection fixed to the last detection of the
original tracklet before the loop. -/
noncomputable def generate_detection_features_for_frame (tracklet : Track)
    (follow_up_detection : Option Detection) (candidate_detections : List Detection)
    (distance_per_second_hard_limit : ℝ) : List Sample :=
  let detection := tracklet.detections.getLastD defaultDetection
  detection_features_iteration tracklet follow_up_detection candidate_detections
    distance_per_second_hard_limit detection ++
  detection_features_iteration (truncate_to_last tracklet) follow_up_detection
    candidate_detections distance_per_second_hard_limit detection

/-- Modelled from the spec: one frame of the external frame source
(`data_walker.iterate_bb_binary_repository`, which is not under `src/`):
a frame identifier, a frame time and the frame detection list, yielded in
ascending time order.  The camera id and the ignored fifth tuple field are
dropped. -/
structure Frame where
  frame_id : Nat
  frame_time : ℝ
  detections : List Detection

/-- The lookup key of a detection: `(frame_id, detection_type,
detection_index)`. -/
def detection_key (d : Detection) : Nat × DetectionType × Nat :=
  (d.frame_id, d.detection_type, d.detection_index)

/-- Python dict assignment `m[k] = v` on a dictionary modelled as a lookup
function (later assignments overwrite earlier ones). -/
def dictInsert {K V : Type} [DecidableEq K] (m : K → Option V) (k : K) (v : V) :
    K → Option V :=
  fun k' => if k' = k then some v else m k'

/-- The first pass of `generate_detection_features`: the
frame-to-next-frame dictionary built from consecutive frames of the
stream. -/
def next_frame_dict (frames : List Frame) : Nat → Option Nat :=
  (frames.zip frames.tail).foldl
    (fun m p => dictInsert m p.1.frame_id p.2.frame_id)
    (fun _ => none)

/-- The growing tracklet prefix of a ground-truth track ending at position
`det_idx` (`track._replace(detections=track.detections[:det_idx+1], ...)`). -/
def track_prefix_at (track : Track) (det_idx : Nat) : Track :=
  { track with
    detections := track.detections.take (det_idx + 1),
    timestamps := track.timestamps.take (det_idx + 1),
    frame_ids := track.frame_ids.take (det_idx + 1) }

/-- The ground-truth enumeration pass of `generate_detection_features`:
for every track position, record the tracklet prefix under the detection
key, and — when the next detection of the track lies in the immediately
following frame and the type transition is not excluded — record the true
follow-up detection.  A detection whose frame id is missing from the
next-frame dictionary would raise KeyError in the source; here the lookup
simply fails the follow-up condition (every claim below stays inside the
covered window, where the dictionary is total). -/
def build_maps (gt_tracks : List Track) (nfd : Nat → Option Nat) :
    ((Nat × DetectionType × Nat) → Option Track) × ((Nat × DetectionType × Nat) → Option Detection) :=
  gt_tracks.foldl (fun maps track =>
    (List.range track.detections.length).foldl (fun maps det_idx =>
      let det := track.detections.getD det_idx defaultDetection
      let det_track := track_prefix_at track det_idx
      let maps1 := (dictInsert maps.1 (detection_key det) det_track, maps.2)
      if det_idx = track.detections.length - 1 then maps1
      else
        let next_det := track.detections.getD (det_idx + 1) defaultDetection
        if nfd det.frame_id ≠ some next_det.frame_id then maps1
        else if ¬ is_valid_detection_pair_combination det next_det then maps1
        else (maps1.1, dictInsert maps1.2 (detection_key det) next_det))
      maps)
    (fun _ => none, fun _ => none)

/-- The submission pass of `generate_detection_features`: walk the frames
again and, for every detection of the previous frame, submit one unit of
work carrying its follow-up (if any), its tracklet history (or a fresh
singleton tracklet on the current frame id), and the current frame
detections as candidate pool.  The worker results are concatenated in
submission order, which is how the futures list is drained. -/
noncomputable def submit_jobs (frames : List Frame)
    (det_to_tracklet : (Nat × DetectionType × Nat) → Option Track)
    (follow_up_detection_map : (Nat × DetectionType × Nat) → Option Detection)
    (distance_per_second_hard_limit : ℝ) : List Sample :=
  (frames.foldl (fun (acc : Option (List Detection) × List Sample) frame =>
    let out := match acc.1 with
      | none => []
      | some last_frame_detections =>
        (last_frame_detections.map (fun detection =>
          let det_key := detection_key detection
          let follow_up := follow_up_detection_map det_key
          let det_tracklet := match det_to_tracklet det_key with
            | some t => t
            | none =>
              { id := 0, cam_id := 0, detections := [detection],
                timestamps := [detection.timestamp_posix],
                frame_ids := [frame.frame_id],
                bee_id := none, bee_id_confidence := none }
          generate_detection_features_for_frame det_tracklet follow_up
            frame.detections distance_per_second_hard_limit)).foldr (· ++ ·) []
    (some frame.detections, acc.2 ++ out))
    (none, [])).2

/-- Modelled from the spec: `generate_detection_features(gt_tracks, ...)`
with the external repository walk replaced by an explicit frame list (the
spec treats the frame source as an external collaborator producing the
time-ordered frame stream; the time-window computation, progress bars and
process pool do not change the produced dataset and are dropped). -/
noncomputable def generate_detection_features (gt_tracks : List Track)
    (frames : List Frame) (distance_per_second_hard_limit : ℝ) : List Sample :=
  let nfd := next_frame_dict frames
  let maps := build_maps gt_tracks nfd
  submit_jobs frames maps.1 maps.2 distance_per_second_hard_limit

/-! Concrete fixtures used by counterexamples and witnesses. -/

/-- A concrete tagged detection at the origin of frame 1. -/
def probeDetection : Detection :=
  { x_hive := 0, y_hive := 0, orientation_hive := 0, timestamp_posix := 0,
    x_pixels := some 10, y_pixels := some 20, frame_id := 1, detection_index := 0,
    detection_type := DetectionType.TaggedBee,
    bit_probabilities := some [0.9, 0.1], localizer_saliency := some 1 }

/-- A concrete singleton tracklet holding `probeDetection`. -/
def probeTrack : Track :=
  { id := 7, cam_id := 0, detections := [probeDetection], timestamps := [0],
    frame_ids := [1], bee_id := none, bee_id_confidence := none }

/-! Claim C1. -/

/-- Claim C1 (amended): for every tracklet and candidate detection,
`get_detection_features` returns a tuple of exactly 18 values (not 14),
and for every pair of tracklets `get_track_features` returns a tuple of
exactly 14 values (not 12), each in the fixed field order of the
definitions above. -/
theorem feature_arity_amended (t0 : Track) (d1 : Detection) (u0 u1 : Track) :
    (get_detection_features t0 d1).length = 18 ∧ (get_track_features u0 u1).length = 14 :=
  ⟨rfl, rfl⟩

/-- Claim C1 counterexample: on a concrete tracklet/detection pair the
detection feature tuple does not have 14 values, and the track feature
tuple does not have 12. -/
theorem feature_arity_claim_counterexample :
    ¬ ((get_detection_features probeTrack probeDetection).length = 14
        ∧ (get_track_features probeTrack probeTrack).length = 12) := by
  intro h
  have h18 : (get_detection_features probeTrack probeDetection).length = 18 := rfl
  rw [h.1] at h18
  exact absurd h18 (by norm_num)

/-! Claim C3. -/

open Classical in
/-- Claim C3: `detection_id_match` returns 1.0 when both bit vectors are
absent, 0.0 when exactly one is absent, and otherwise 1.0 exactly when
every bit pair makes the same hard decision against the 0.5 threshold
(a single disagreeing bit forces 0.0, regardless of the raw probability
values); and `detection_id_match_cost` is always 1 minus the match. -/
theorem detection_id_match_threshold (d0 d1 : Detection) :
    detection_id_match_cost d0 d1 = 1 - detection_id_match d0 d1 ∧
    detection_id_match d0 d1 =
      (match d0.bit_probabilities, d1.bit_probabilities with
       | none, none => 1
       | some b0, some b1 =>
         if ∀ p ∈ b0.zip b1, ((0.5 : ℝ) < p.1 ↔ (0.5 : ℝ) < p.2) then 1 else 0
       | _, _ => 0) := by
  constructor
  · norm_num [detection_id_match_cost]
  · cases hb0 : d0.bit_probabilities with
    | none =>
      cases hb1 : d1.bit_probabilities with
      | none => norm_num [detection_id_match, hb0, hb1]
      | some b1 => norm_num [detection_id_match, hb0, hb1]
    | some b0 =>
      cases hb1 : d1.bit_probabilities with
      | none => norm_num [detection_id_match, hb0, hb1]
      | some b1 =>
        simp only [detection_id_match, hb0, hb1]
        by_cases h : ∀ p ∈ b0.zip b1, ((0.5 : ℝ) < p.1 ↔ (0.5 : ℝ) < p.2)
        · rw [if_pos h, if_neg]
          · norm_num
          · intro hcon
            obtain ⟨p, hp, hna⟩ := hcon
            exact hna (h p hp)
        · rw [if_neg h, if_pos]
          · norm_num
          · obtain ⟨p, hp⟩ := not_forall.mp h
            obtain ⟨hmem, hna⟩ := Classical.not_imp.mp hp
            exact ⟨p, hmem, hna⟩

/-! Claim C5. -/

/-- Mapping an index-based read over `List.range` is the same as mapping
over the list itself (the bridge between the matrix fill loop and the
per-pair scalar calls). -/
theorem range_map_getD {β : Type} (f : ℝ → β) (l : List ℝ) :
    (List.range l.length).map (fun i => f (l.getD i 0)) = l.map f := by
  induction l with
  | nil => rfl
  | cons x xs ih =>
    rw [List.length_cons, List.range_succ_eq_map, List.map_cons, List.map_map]
    have hcomp : ((fun i => f ((x :: xs).getD i 0)) ∘ Nat.succ)
        = (fun i => f (xs.getD i 0)) := by
      funext i
      simp
    rw [hcomp, ih]
    simp

/-- The temporal fill loop produces exactly the pairwise signed
differences. -/
theorem temporal_distance_vectorized_eq (t0 t1 : List ℝ) :
    temporal_distance_vectorized t0 t1 = t0.map (fun a => t1.map (fun b => b - a)) := by
  have inner : ∀ a : ℝ,
      (List.range t1.length).map (fun j => t1.getD j 0 - a) = t1.map (fun b => b - a) :=
    fun a => range_map_getD (fun b => b - a) t1
  unfold temporal_distance_vectorized
  calc (List.range t0.length).map (fun i =>
          (List.range t1.length).map (fun j => t1.getD j 0 - t0.getD i 0))
      = (List.range t0.length).map (fun i => t1.map (fun b => b - t0.getD i 0)) := by
        exact List.map_congr_left fun i _ => inner _
    _ = t0.map (fun a => t1.map (fun b => b - a)) :=
        range_map_getD (fun a => t1.map (fun b => b - a)) t0

/-- Claim C5: `detection_raw_distance_vectorized` returns the full
pairwise Euclidean-distance matrix and the full pairwise signed
temporal-distance matrix, equal element for element to the scalar
`euclidean_distance` and `detection_temporal_distance` over the Cartesian
product of the two detection lists; the row count and the row lengths are
always the two input sizes, covering the empty cases. -/
theorem raw_distance_vectorized_matches_scalar (dl dr : List Detection) :
    (detection_raw_distance_vectorized dl dr).1 =
        dl.map (fun l => dr.map (fun r =>
          euclidean_distance l.x_hive l.y_hive r.x_hive r.y_hive)) ∧
    (detection_raw_distance_vectorized dl dr).2 =
        dl.map (fun l => dr.map (fun r => detection_temporal_distance l r)) ∧
    (detection_raw_distance_vectorized dl dr).1.map List.length =
        List.replicate dl.length dr.length ∧
    (detection_raw_distance_vectorized dl dr).2.map List.length =
        List.replicate dl.length dr.length := by
  have h1 : (detection_raw_distance_vectorized dl dr).1 =
      dl.map (fun l => dr.map (fun r =>
        euclidean_distance l.x_hive l.y_hive r.x_hive r.y_hive)) := by
    simp only [detection_raw_distance_vectorized, cdist_euclidean, List.map_map]
    refine List.map_congr_left fun l _ => ?_
    refine List.map_congr_left fun r _ => ?_
    simp only [Function.comp, euclidean_distance]
    refine congrArg Real.sqrt ?_
    ring
  have hts : ∀ ds : List Detection,
      (ds.map (fun d => (d.x_hive, d.y_hive, d.timestamp_posix))).map (fun c => c.2.2)
        = ds.map (fun d => d.timestamp_posix) := by
    intro ds
    rw [List.map_map]
    rfl
  have h2 : (detection_raw_distance_vectorized dl dr).2 =
      dl.map (fun l => dr.map (fun r => detection_temporal_distance l r)) := by
    simp only [detection_raw_distance_vectorized]
    rw [hts dl, hts dr, temporal_distance_vectorized_eq, List.map_map]
    refine List.map_congr_left fun l _ => ?_
    show (dr.map (fun d => d.timestamp_posix)).map (fun b => b - l.timestamp_posix) = _
    rw [List.map_map]
    rfl
  refine ⟨h1, h2, ?_, ?_⟩
  · rw [h1, List.map_map]
    refine List.eq_replicate_iff.mpr ⟨by simp, fun b hb => ?_⟩
    rw [List.mem_map] at hb
    obtain ⟨l, _, rfl⟩ := hb
    simp [Function.comp]
  · rw [h2, List.map_map]
    refine List.eq_replicate_iff.mpr ⟨by simp, fun b hb => ?_⟩
    rw [List.mem_map] at hb
    obtain ⟨l, _, rfl⟩ := hb
    simp [Function.comp]

/-! Claims C7 and C8: Python float modulus facts. -/

/-- For a nonzero modulus, `pymod` is the modulus times the fractional
part of the quotient. -/
theorem pymod_eq_fract (a b : ℝ) (hb : b ≠ 0) : pymod a b = b * Int.fract (a / b) := by
  unfold pymod Int.fract
  have hcancel : b * (a / b) = a := by field_simp
  rw [mul_sub, hcancel]

/-- `pymod` into a positive modulus is nonnegative. -/
theorem pymod_nonneg (a b : ℝ) (hb : 0 < b) : 0 ≤ pymod a b := by
  rw [pymod_eq_fract a b hb.ne']
  exact mul_nonneg hb.le (Int.fract_nonneg _)

/-- `pymod` into a positive modulus stays below the modulus. -/
theorem pymod_lt (a b : ℝ) (hb : 0 < b) : pymod a b < b := by
  rw [pymod_eq_fract a b hb.ne']
  nlinarith [Int.fract_lt_one (a / b)]

/-- `pymod a b` differs from `a` by an integer multiple of `b`. -/
theorem pymod_sub_int (a b : ℝ) : ∃ k : ℤ, pymod a b = a + b * k :=
  ⟨-⌊a / b⌋, by unfold pymod; push_cast; ring⟩

/-- Claim C7 (amended): `short_angle_dist a0 a1` is congruent to
`a1 - a0` modulo 2π and always lies in the half-open interval [-π, π)
(closed on the left, open on the right — at an angular difference of
exactly π the function returns -π, not π). -/
theorem short_angle_dist_range_amended (a0 a1 : ℝ) :
    (-Real.pi ≤ short_angle_dist a0 a1 ∧ short_angle_dist a0 a1 < Real.pi) ∧
    ∃ k : ℤ, short_angle_dist a0 a1 = (a1 - a0) + 2 * Real.pi * k := by
  have hpi : (0 : ℝ) < Real.pi := Real.pi_pos
  have hT : (0 : ℝ) < 2 * Real.pi := by positivity
  have h0 : 0 ≤ pymod (a1 - a0) (2 * Real.pi) := pymod_nonneg _ _ hT
  have h2 : pymod (a1 - a0) (2 * Real.pi) < 2 * Real.pi := pymod_lt _ _ hT
  obtain ⟨k, hk⟩ := pymod_sub_int (a1 - a0) (2 * Real.pi)
  set da := pymod (a1 - a0) (2 * Real.pi) with hda
  have hval : short_angle_dist a0 a1 = pymod (2 * da) (2 * Real.pi) - da := rfl
  by_cases hcase : da < Real.pi
  · have hfloor : ⌊2 * da / (2 * Real.pi)⌋ = 0 := by
      rw [Int.floor_eq_zero_iff, Set.mem_Ico]
      constructor
      · positivity
      · rw [div_lt_one hT]
        linarith
    have hm : pymod (2 * da) (2 * Real.pi) = 2 * da := by
      unfold pymod
      rw [hfloor]
      push_cast
      ring
    rw [hval, hm]
    exact ⟨⟨by linarith, by linarith⟩, ⟨k, by linarith⟩⟩
  · push_neg at hcase
    have hfloor : ⌊2 * da / (2 * Real.pi)⌋ = 1 := by
      rw [Int.floor_eq_iff]
      constructor
      · push_cast
        rw [le_div_iff₀ hT]
        linarith
      · push_cast
        rw [div_lt_iff₀ hT]
        linarith
    have hm : pymod (2 * da) (2 * Real.pi) = 2 * da - 2 * Real.pi := by
      unfold pymod
      rw [hfloor]
      push_cast
      ring
    rw [hval, hm]
    refine ⟨⟨by linarith, by linarith⟩, ⟨k - 1, ?_⟩⟩
    push_cast
    linarith

/-- Claim C7 counterexample: at `a0 = 0`, `a1 = π` the function returns
exactly -π, which is outside the claimed half-open interval (-π, π]. -/
theorem short_angle_dist_range_counterexample :
    short_angle_dist 0 Real.pi ∉ Set.Ioc (-Real.pi) Real.pi := by
  have hpi : (0 : ℝ) < Real.pi := Real.pi_pos
  have h1 : pymod (Real.pi - 0) (2 * Real.pi) = Real.pi := by
    unfold pymod
    have hq : (Real.pi - 0) / (2 * Real.pi) = 1 / 2 := by
      rw [sub_zero, div_eq_iff (by positivity : (2 : ℝ) * Real.pi ≠ 0)]
      ring
    rw [hq, show ⌊(1 : ℝ) / 2⌋ = 0 from by norm_num]
    push_cast
    ring
  have h2 : pymod (2 * Real.pi) (2 * Real.pi) = 0 := by
    unfold pymod
    rw [div_self (by positivity : (2 : ℝ) * Real.pi ≠ 0),
      show ⌊(1 : ℝ)⌋ = 1 from by norm_num]
    push_cast
    ring
  have hval : short_angle_dist 0 Real.pi = -Real.pi := by
    show pymod (2 * pymod (Real.pi - 0) (2 * Real.pi)) (2 * Real.pi)
        - pymod (Real.pi - 0) (2 * Real.pi) = -Real.pi
    rw [h1, h2]
    ring
  rw [hval]
  simp [Set.mem_Ioc]

/-- The folded angular difference is always in [0, π]. -/
theorem angular_fold_bounds (a0 a1 : ℝ) :
    0 ≤ angular_difference_folded a0 a1 ∧ angular_difference_folded a0 a1 ≤ Real.pi := by
  have hT : (0 : ℝ) < 2 * Real.pi := by positivity
  unfold angular_difference_folded
  dsimp only
  have h0 : 0 ≤ pymod (a0 - a1) (2 * Real.pi) := pymod_nonneg _ _ hT
  have h2 : pymod (a0 - a1) (2 * Real.pi) < 2 * Real.pi := pymod_lt _ _ hT
  set m := pymod (a0 - a1) (2 * Real.pi) with hm
  rw [abs_of_nonneg h0]
  by_cases hc : Real.pi ≤ m
  · rw [if_pos hc, abs_of_nonpos (by linarith)]
    constructor <;> linarith
  · push_neg at hc
    rw [if_neg (not_le.mpr hc), abs_of_nonneg h0]
    exact ⟨h0, hc.le⟩

/-- The folded angular difference is symmetric in its two angles. -/
theorem angular_fold_symm (a0 a1 : ℝ) :
    angular_difference_folded a0 a1 = angular_difference_folded a1 a0 := by
  have hT : (0 : ℝ) < 2 * Real.pi := by positivity
  unfold angular_difference_folded
  dsimp only
  have hswap : a1 - a0 = -(a0 - a1) := by ring
  rw [hswap]
  set x := a0 - a1 with hx
  by_cases hz : Int.fract (x / (2 * Real.pi)) = 0
  · have hpx : pymod x (2 * Real.pi) = 0 := by
      rw [pymod_eq_fract _ _ hT.ne', hz, mul_zero]
    have hnx : pymod (-x) (2 * Real.pi) = 0 := by
      rw [pymod_eq_fract _ _ hT.ne', neg_div, Int.fract_neg_eq_zero.mpr hz, mul_zero]
    rw [hpx, hnx]
  · have hneg : pymod (-x) (2 * Real.pi) = 2 * Real.pi - pymod x (2 * Real.pi) := by
      rw [pymod_eq_fract _ _ hT.ne', pymod_eq_fract _ _ hT.ne', neg_div,
        Int.fract_neg hz]
      ring
    rw [hneg]
    have h0 : 0 ≤ pymod x (2 * Real.pi) := pymod_nonneg _ _ hT
    have h2 : pymod x (2 * Real.pi) < 2 * Real.pi := pymod_lt _ _ hT
    set m := pymod x (2 * Real.pi) with hm
    rw [abs_of_nonneg h0, abs_of_nonneg (by linarith : (0 : ℝ) ≤ 2 * Real.pi - m)]
    by_cases hc : Real.pi ≤ m
    · rw [if_pos hc]
      by_cases hcc : m ≤ Real.pi
      · have hme : m = Real.pi := le_antisymm hcc hc
        rw [if_pos (by linarith : Real.pi ≤ 2 * Real.pi - m), hme,
          show Real.pi - 2 * Real.pi = -Real.pi from by ring,
          show 2 * Real.pi - Real.pi - 2 * Real.pi = -Real.pi from by ring]
      · push_neg at hcc
        rw [if_neg (by intro hcon; linarith : ¬ Real.pi ≤ 2 * Real.pi - m),
          abs_sub_comm]
    · push_neg at hc
      rw [if_neg (not_le.mpr hc), if_pos (by linarith : Real.pi ≤ 2 * Real.pi - m),
        show 2 * Real.pi - m - 2 * Real.pi = -m from by ring, abs_neg]

/-- Claim C8: `angular_distance` with norm 1 is symmetric and lands in
[0, π]; the wraparound example `angular_distance 0.1 6.2 1` equals exactly
2π - 6.1, which is within 1/100 of 0.1833 and more than 5 away from
6.1. -/
theorem angular_distance_symm_range_wraparound :
    (∀ a b : ℝ, angular_distance a b 1 = angular_distance b a 1 ∧
      0 ≤ angular_distance a b 1 ∧ angular_distance a b 1 ≤ Real.pi) ∧
    angular_distance 0.1 6.2 1 = 2 * Real.pi - 6.1 ∧
    |angular_distance 0.1 6.2 1 - 0.1833| < 1 / 100 ∧
    5 < |angular_distance 0.1 6.2 1 - 6.1| := by
  have hgt := Real.pi_gt_d6
  have hlt := Real.pi_lt_d6
  have hT : (0 : ℝ) < 2 * Real.pi := by positivity
  constructor
  · intro a b
    refine ⟨?_, ?_, ?_⟩
    · unfold angular_distance
      rw [angular_fold_symm]
    · unfold angular_distance
      rw [div_one]
      exact (angular_fold_bounds a b).1
    · unfold angular_distance
      rw [div_one]
      exact (angular_fold_bounds a b).2
  · have hdiffval : (0.1 : ℝ) - 6.2 = -6.1 := by norm_num
    have hfloor : ⌊(-6.1 : ℝ) / (2 * Real.pi)⌋ = -1 := by
      rw [Int.floor_eq_iff]
      constructor
      · push_cast
        rw [le_div_iff₀ hT]
        nlinarith
      · push_cast
        rw [div_lt_iff₀ hT]
        nlinarith
    have hpym : pymod (-6.1 : ℝ) (2 * Real.pi) = 2 * Real.pi - 6.1 := by
      unfold pymod
      rw [hfloor]
      push_cast
      ring
    have hval : angular_distance 0.1 6.2 1 = 2 * Real.pi - 6.1 := by
      unfold angular_distance angular_difference_folded
      dsimp only
      rw [hdiffval, hpym, abs_of_nonneg (by nlinarith : (0 : ℝ) ≤ 2 * Real.pi - 6.1),
        if_neg (by intro hcon; nlinarith : ¬ Real.pi ≤ 2 * Real.pi - 6.1),
        abs_of_nonneg (by nlinarith : (0 : ℝ) ≤ 2 * Real.pi - 6.1), div_one]
    refine ⟨hval, ?_, ?_⟩
    · rw [hval, abs_lt]
      constructor <;> nlinarith
    · rw [hval, abs_of_neg (by nlinarith : 2 * Real.pi - 6.1 - 6.1 < 0)]
      nlinarith

/-! Claim C6. -/

/-- A second concrete detection, one time unit and one x unit away from
`probeDetection`. -/
def probeDetectionB : Detection :=
  { probeDetection with x_hive := 1, timestamp_posix := 1, frame_id := 2 }

/-- Claim C6 (amended): for detections with distinct timestamps,
`extrapolate_detections` at `seconds = 0` (extrapolation factor 0) returns
a detection whose position and orientation equal the last detection
exactly; at `seconds = temporal_distance(d_prev, d_last)` the factor is 1
and the result overshoots the last detection by one full step:
`x1 + (x1 - x0)`, `y1 + (y1 - y0)` and
`a1 + short_angle_dist(a0, a1)` — it does not reproduce `d_last`. -/
theorem extrapolate_boundary_amended (d0 d1 : Detection)
    (h : detection_temporal_distance d0 d1 ≠ 0) :
    ((extrapolate_detections 0 [d0, d1]).x_hive = d1.x_hive ∧
     (extrapolate_detections 0 [d0, d1]).y_hive = d1.y_hive ∧
     (extrapolate_detections 0 [d0, d1]).orientation_hive = d1.orientation_hive) ∧
    ((extrapolate_detections (detection_temporal_distance d0 d1) [d0, d1]).x_hive
        = d1.x_hive + (d1.x_hive - d0.x_hive) ∧
     (extrapolate_detections (detection_temporal_distance d0 d1) [d0, d1]).y_hive
        = d1.y_hive + (d1.y_hive - d0.y_hive) ∧
     (extrapolate_detections (detection_temporal_distance d0 d1) [d0, d1]).orientation_hive
        = d1.orientation_hive
          + short_angle_dist d0.orientation_hive d1.orientation_hive) := by
  refine ⟨⟨?_, ?_, ?_⟩, ⟨?_, ?_, ?_⟩⟩ <;>
    simp [extrapolate_detections, extrapolate_position_and_angles, div_self h]

/-- Claim C6 witness: on the concrete pair `probeDetection`,
`probeDetectionB` the zero-seconds call reproduces the last position and
the temporal-distance call lands one step beyond it. -/
theorem extrapolate_boundary_witness :
    (extrapolate_detections 0 [probeDetection, probeDetectionB]).x_hive
        = probeDetectionB.x_hive ∧
    (extrapolate_detections (detection_temporal_distance probeDetection probeDetectionB)
        [probeDetection, probeDetectionB]).x_hive
      = probeDetectionB.x_hive + (probeDetectionB.x_hive - probeDetection.x_hive) := by
  have hne : detection_temporal_distance probeDetection probeDetectionB ≠ 0 := by
    norm_num [detection_temporal_distance, probeDetection, probeDetectionB]
  exact ⟨(extrapolate_boundary_amended probeDetection probeDetectionB hne).1.1,
         (extrapolate_boundary_amended probeDetection probeDetectionB hne).2.1⟩

/-- Claim C6 counterexample: at `seconds = temporal_distance(d_prev,
d_last)` the extrapolated x position on a concrete pair is 2, not the
last-detection x position 1; the claim that this call reproduces the last
detection exactly is false. -/
theorem extrapolate_at_temporal_distance_counterexample :
    (extrapolate_detections (detection_temporal_distance probeDetection probeDetectionB)
        [probeDetection, probeDetectionB]).x_hive
      ≠ probeDetectionB.x_hive := by
  simp only [extrapolate_detections, extrapolate_position_and_angles]
  norm_num [detection_temporal_distance, probeDetection, probeDetectionB]

/-! Claim C10. -/

/-- Claim C10: on a tracklet holding exactly one detection,
`track_forward_distance` degenerates to the raw (un-normalized) Euclidean
distance between that lone detection and the candidate, because the
extrapolation over `detections[-2:]` receives a single detection and
returns it unchanged; in particular the fifth feature slot of
`get_detection_features` is that distance, so the assembler is
well-defined on singleton tracklets. -/
theorem track_forward_distance_singleton (t : Track) (d0 d : Detection)
    (h : t.detections = [d0]) :
    track_forward_distance t d none
        = FV.fin (euclidean_distance d0.x_hive d0.y_hive d.x_hive d.y_hive) ∧
    (get_detection_features t d).getD 4 FV.nan
        = FV.fin (euclidean_distance d0.x_hive d0.y_hive d.x_hive d.y_hive) := by
  have h1 : track_forward_distance t d none
      = FV.fin (euclidean_distance d0.x_hive d0.y_hive d.x_hive d.y_hive) := by
    simp [track_forward_distance, h, takeLastN, extrapolate_detections,
      detection_distance, fvDiv]
  have h2 : (get_detection_features t d).getD 4 FV.nan
      = track_forward_distance t d none := rfl
  exact ⟨h1, h2.trans h1⟩

/-- Claim C10 witness: evaluated on the concrete singleton tracklet
`probeTrack` and candidate `probeDetectionB`. -/
theorem track_forward_distance_singleton_witness :
    track_forward_distance probeTrack probeDetectionB none
      = FV.fin (euclidean_distance probeDetection.x_hive probeDetection.y_hive
          probeDetectionB.x_hive probeDetectionB.y_hive) :=
  (track_forward_distance_singleton probeTrack probeDetection probeDetectionB rfl).1

/-! Claims C4 and C9: the hard distance limit filter. -/

/-- A candidate that is not skipped as the follow-up and whose first
feature component does not exceed the hard limit contributes its negative
sample to the iteration output. -/
theorem neg_sample_mem_iteration (tr : Track) (fol : Option Detection)
    (cands : List Detection) (limit : ℝ) (det c : Detection)
    (hc : c ∈ cands)
    (hskip : (match fol with
              | some f => are_same_detections c f
              | none => false) = false)
    (hfilter : ¬ FV.gtReal ((get_detection_features tr c).headD FV.nan) limit) :
    (⟨get_detection_features tr c, 0, debugOf det c⟩ : Sample)
      ∈ detection_features_iteration tr fol cands limit det := by
  unfold detection_features_iteration
  refine List.mem_append_right _ ?_
  refine List.mem_filterMap.mpr ⟨c, hc, ?_⟩
  cases fol with
  | none =>
    dsimp only
    rw [if_neg (by simp : ¬(false = true)), if_neg hfilter]
  | some f =>
    have hsame : are_same_detections c f = false := hskip
    dsimp only
    rw [if_neg (by simp [hsame] : ¬(are_same_detections c f = true)), if_neg hfilter]

/-- Any sample of an iteration output that carries label 0 has a first
feature component that does not exceed the hard limit. -/
theorem iteration_neg_headD (tr : Track) (fol : Option Detection)
    (cands : List Detection) (limit : ℝ) (det : Detection) (s : Sample)
    (hs : s ∈ detection_features_iteration tr fol cands limit det)
    (hlabel : s.label = 0) :
    ¬ FV.gtReal (s.features.headD FV.nan) limit := by
  unfold detection_features_iteration at hs
  cases fol with
  | none =>
    rcases List.mem_append.mp hs with hpos | hneg
    · exact absurd hpos (List.not_mem_nil s)
    · obtain ⟨c, hc, hbody⟩ := List.mem_filterMap.mp hneg
      dsimp only at hbody
      rw [if_neg (by simp : ¬(false = true))] at hbody
      by_cases h2 : FV.gtReal ((get_detection_features tr c).headD FV.nan) limit
      · rw [if_pos h2] at hbody
        exact absurd hbody (by simp)
      · rw [if_neg h2] at hbody
        have heq := Option.some.inj hbody
        rw [← heq]
        exact h2
  | some f =>
    rcases List.mem_append.mp hs with hpos | hneg
    · exfalso
      have hpos' : s ∈ [(⟨get_detection_features tr f, 1, debugOf det f⟩ : Sample)] := hpos
      rw [List.mem_singleton] at hpos'
      rw [hpos'] at hlabel
      exact absurd hlabel (by norm_num)
    · obtain ⟨c, hc, hbody⟩ := List.mem_filterMap.mp hneg
      dsimp only at hbody
      by_cases h1 : are_same_detections c f = true
      · rw [if_pos h1] at hbody
        exact absurd hbody (by simp)
      · rw [if_neg h1] at hbody
        by_cases h2 : FV.gtReal ((get_detection_features tr c).headD FV.nan) limit
        · rw [if_pos h2] at hbody
          exact absurd hbody (by simp)
        · rw [if_neg h2] at hbody
          have heq := Option.some.inj hbody
          rw [← heq]
          exact h2

/-- Claim C4: in every unit of work
(`generate_detection_features_for_frame`), a sample that carries label 0
never has a first feature component (the normalized spatial/temporal
distance) exceeding `distance_per_second_hard_limit` — candidates that
exceed the limit are dropped before a negative sample is emitted, under
both decay depths. -/
theorem negative_samples_respect_hard_limit (tracklet : Track)
    (fol : Option Detection) (cands : List Detection) (limit : ℝ) (s : Sample)
    (hs : s ∈ generate_detection_features_for_frame tracklet fol cands limit)
    (hlabel : s.label = 0) :
    ¬ FV.gtReal (s.features.headD FV.nan) limit := by
  unfold generate_detection_features_for_frame at hs
  rcases List.mem_append.mp hs with h | h
  · exact iteration_neg_headD _ _ _ _ _ _ h hlabel
  · exact iteration_neg_headD _ _ _ _ _ _ h hlabel

/-- Claim C4 witness: a concrete run (singleton tracklet at the origin,
one candidate one unit away, no follow-up, limit 30) emits a negative
sample, and the theorem applied to it yields that its first feature
component does not exceed the limit. -/
theorem negative_samples_respect_hard_limit_witness :
    ¬ FV.gtReal ((⟨get_detection_features probeTrack probeDetectionB, 0,
        debugOf probeDetection probeDetectionB⟩ : Sample).features.headD FV.nan) 30 := by
  have hfeat : (get_detection_features probeTrack probeDetectionB).headD FV.nan
      = FV.fin 1 := by
    show detection_distance probeDetection probeDetectionB none = FV.fin 1
    norm_num [detection_distance, detection_temporal_distance, euclidean_distance,
      fvDiv, probeDetection, probeDetectionB, Real.sqrt_one]
  have hno : ¬ FV.gtReal ((get_detection_features probeTrack probeDetectionB).headD FV.nan) 30 := by
    rw [hfeat]
    show ¬ (30 : ℝ) < 1
    norm_num
  have hmem : (⟨get_detection_features probeTrack probeDetectionB, 0,
      debugOf probeDetection probeDetectionB⟩ : Sample)
        ∈ generate_detection_features_for_frame probeTrack none [probeDetectionB] 30 := by
    refine List.mem_append_left _ ?_
    exact neg_sample_mem_iteration probeTrack none [probeDetectionB] 30
      probeDetection probeDetectionB (List.mem_singleton_self _) rfl hno
  exact negative_samples_respect_hard_limit probeTrack none [probeDetectionB] 30 _ hmem rfl

/-- A concrete candidate colocated and simultaneous with `probeDetection`
(so its normalized distance feature is 0/0 = NaN) but with a different
detection index. -/
def probeDetectionC : Detection :=
  { probeDetection with detection_index := 5 }

/-- Claim C9: the IEEE comparison `NaN > limit` is false for every limit,
so the hard-limit check never removes a candidate whose first feature
component is NaN — such a non-follow-up candidate is emitted as a negative
(label 0) sample of the unit of work; the filter drops only candidates
whose distance feature strictly exceeds the limit. -/
theorem nan_distance_kept_as_negative :
    (∀ limit : ℝ, ¬ FV.gtReal FV.nan limit) ∧
    ∀ (tracklet : Track) (fol : Option Detection) (cands : List Detection)
      (limit : ℝ) (c : Detection),
      c ∈ cands →
      (match fol with
       | some f => are_same_detections c f
       | none => false) = false →
      (get_detection_features tracklet c).headD FV.nan = FV.nan →
      (⟨get_detection_features tracklet c, 0,
          debugOf (tracklet.detections.getLastD defaultDetection) c⟩ : Sample)
        ∈ generate_detection_features_for_frame tracklet fol cands limit := by
  constructor
  · intro limit
    exact not_false
  · intro tracklet fol cands limit c hc hskip hnan
    unfold generate_detection_features_for_frame
    refine List.mem_append_left _ ?_
    refine neg_sample_mem_iteration tracklet fol cands limit _ c hc hskip ?_
    rw [hnan]
    exact not_false

/-- Claim C9 witness: the colocated, simultaneous candidate
`probeDetectionC` has a NaN distance feature and its negative sample is in
the concrete unit-of-work output with limit 30. -/
theorem nan_distance_kept_as_negative_witness :
    (⟨get_detection_features probeTrack probeDetectionC, 0,
        debugOf probeDetection probeDetectionC⟩ : Sample)
      ∈ generate_detection_features_for_frame probeTrack none [probeDetectionC] 30 := by
  have hnan : (get_detection_features probeTrack probeDetectionC).headD FV.nan
      = FV.nan := by
    show detection_distance probeDetection probeDetectionC none = FV.nan
    norm_num [detection_distance, detection_temporal_distance, euclidean_distance,
      fvDiv, probeDetection, probeDetectionC, Real.sqrt_zero]
  exact nan_distance_kept_as_negative.2 probeTrack none [probeDetectionC] 30
    probeDetectionC (List.mem_singleton_self _) rfl hnan

/-! Claim C2. -/

/-- Claim C2 (amended): for a run of `generate_detection_features` on
exactly one ground-truth track of 3 detections lying in three consecutive
frames (all TaggedBee), with no other detections present in those frames,
the returned dataset contains exactly 4 samples — one per consecutive pair
under each of the two decay depths — and all 4 carry label 1; none carry
label 0.  (The "single-detection duplicates" are also positive samples,
so the positive count is 4, not 2.) -/
theorem single_track_scenario_amended (track : Track) (dA dB dC : Detection)
    (t1 t2 t3 limit : ℝ)
    (hdets : track.detections = [dA, dB, dC])
    (h12 : dA.frame_id ≠ dB.frame_id) (h13 : dA.frame_id ≠ dC.frame_id)
    (h23 : dB.frame_id ≠ dC.frame_id)
    (htA : dA.detection_type = DetectionType.TaggedBee)
    (htB : dB.detection_type = DetectionType.TaggedBee)
    (htC : dC.detection_type = DetectionType.TaggedBee) :
    (generate_detection_features [track]
        [⟨dA.frame_id, t1, [dA]⟩, ⟨dB.frame_id, t2, [dB]⟩, ⟨dC.frame_id, t3, [dC]⟩]
        limit).map Sample.label = [1, 1, 1, 1] := by
  have hnfdA : next_frame_dict
      [⟨dA.frame_id, t1, [dA]⟩, ⟨dB.frame_id, t2, [dB]⟩, ⟨dC.frame_id, t3, [dC]⟩]
      dA.frame_id = some dB.frame_id := by
    simp [next_frame_dict, dictInsert, h12]
  have hnfdB : next_frame_dict
      [⟨dA.frame_id, t1, [dA]⟩, ⟨dB.frame_id, t2, [dB]⟩, ⟨dC.frame_id, t3, [dC]⟩]
      dB.frame_id = some dC.frame_id := by
    simp [next_frame_dict, dictInsert]
  have hrange : List.range ([dA, dB, dC] : List Detection).length = [0, 1, 2] := rfl
  have hlen : ([dA, dB, dC] : List Detection).length - 1 = 2 := rfl
  have hg0 : ([dA, dB, dC] : List Detection).getD 0 defaultDetection = dA := rfl
  have hg1 : ([dA, dB, dC] : List Detection).getD 1 defaultDetection = dB := rfl
  have hg2 : ([dA, dB, dC] : List Detection).getD 2 defaultDetection = dC := rfl
  have hvalidAB : is_valid_detection_pair_combination dA dB = true := by
    simp [is_valid_detection_pair_combination, htA, htB]
  have hvalidBC : is_valid_detection_pair_combination dB dC = true := by
    simp [is_valid_detection_pair_combination, htB, htC]
  have hbuild : build_maps [track] (next_frame_dict
      [⟨dA.frame_id, t1, [dA]⟩, ⟨dB.frame_id, t2, [dB]⟩, ⟨dC.frame_id, t3, [dC]⟩]) =
      (dictInsert (dictInsert (dictInsert (fun _ => none)
          (detection_key dA) (track_prefix_at track 0))
          (detection_key dB) (track_prefix_at track 1))
          (detection_key dC) (track_prefix_at track 2),
       dictInsert (dictInsert (fun _ => none) (detection_key dA) dB)
          (detection_key dB) dC) := by
    simp only [build_maps, List.foldl_cons, List.foldl_nil, hdets, hrange, hlen,
      hg0, hg1, hg2, hnfdA, hnfdB, hvalidAB, hvalidBC]
    norm_num
  have hMtrA : (build_maps [track] (next_frame_dict
      [⟨dA.frame_id, t1, [dA]⟩, ⟨dB.frame_id, t2, [dB]⟩, ⟨dC.frame_id, t3, [dC]⟩])).1
      (detection_key dA) = some (track_prefix_at track 0) := by
    rw [hbuild]
    simp [dictInsert, detection_key, h12, h13]
  have hMtrB : (build_maps [track] (next_frame_dict
      [⟨dA.frame_id, t1, [dA]⟩, ⟨dB.frame_id, t2, [dB]⟩, ⟨dC.frame_id, t3, [dC]⟩])).1
      (detection_key dB) = some (track_prefix_at track 1) := by
    rw [hbuild]
    simp [dictInsert, detection_key, h23]
  have hMfA : (build_maps [track] (next_frame_dict
      [⟨dA.frame_id, t1, [dA]⟩, ⟨dB.frame_id, t2, [dB]⟩, ⟨dC.frame_id, t3, [dC]⟩])).2
      (detection_key dA) = some dB := by
    rw [hbuild]
    simp [dictInsert, detection_key, h12]
  have hMfB : (build_maps [track] (next_frame_dict
      [⟨dA.frame_id, t1, [dA]⟩, ⟨dB.frame_id, t2, [dB]⟩, ⟨dC.frame_id, t3, [dC]⟩])).2
      (detection_key dB) = some dC := by
    rw [hbuild]
    simp [dictInsert, detection_key]
  have hsameB : are_same_detections dB dB = true := by
    simp [are_same_detections]
  have hsameC : are_same_detections dC dC = true := by
    simp [are_same_detections]
  have hjob1 : (generate_detection_features_for_frame (track_prefix_at track 0)
      (some dB) [dB] limit).map Sample.label = [1, 1] := by
    unfold generate_detection_features_for_frame detection_features_iteration
    simp [hsameB]
  have hjob2 : (generate_detection_features_for_frame (track_prefix_at track 1)
      (some dC) [dC] limit).map Sample.label = [1, 1] := by
    unfold generate_detection_features_for_frame detection_features_iteration
    simp [hsameC]
  simp only [generate_detection_features, submit_jobs, List.foldl_cons,
    List.foldl_nil, List.map_cons, List.map_nil, List.foldr_cons, List.foldr_nil,
    hMtrA, hMtrB, hMfA, hMfB]
  simp only [List.nil_append, List.append_nil, List.map_append, hjob1, hjob2]
  rfl

/-- Second detection of the concrete scenario track: frame 2, one unit
later and one x unit away. -/
def scenDetB : Detection :=
  { probeDetection with frame_id := 2, timestamp_posix := 1, x_hive := 1 }

/-- Third detection of the concrete scenario track: frame 3. -/
def scenDetC : Detection :=
  { probeDetection with frame_id := 3, timestamp_posix := 2, x_hive := 2 }

/-- The concrete ground-truth track of three tagged detections in frames
1, 2, 3. -/
def scenTrack : Track :=
  { id := 1, cam_id := 0, detections := [probeDetection, scenDetB, scenDetC],
    timestamps := [0, 1, 2], frame_ids := [1, 2, 3],
    bee_id := none, bee_id_confidence := none }

/-- The three consecutive frames, each containing exactly the track
detection of that frame. -/
def scenFrames : List Frame :=
  [⟨probeDetection.frame_id, 0, [probeDetection]⟩,
   ⟨scenDetB.frame_id, 1, [scenDetB]⟩,
   ⟨scenDetC.frame_id, 2, [scenDetC]⟩]

/-- Claim C2 witness: the concrete three-frame run produces the label
sequence [1, 1, 1, 1]. -/
theorem single_track_scenario_witness :
    (generate_detection_features [scenTrack] scenFrames 30).map Sample.label
      = [1, 1, 1, 1] :=
  single_track_scenario_amended scenTrack probeDetection scenDetB scenDetC 0 1 2 30
    rfl (by decide) (by decide) (by decide) rfl rfl rfl

/-- Claim C2 counterexample: in the concrete three-frame run the number of
samples carrying label 1 is 4, not the claimed 2 (the dataset has 4
samples and every one of them is a positive). -/
theorem single_track_scenario_counterexample :
    ¬ (((generate_detection_features [scenTrack] scenFrames 30).map Sample.label).count 1
        = 2) := by
  have h : (generate_detection_features [scenTrack] scenFrames 30).map Sample.label
      = [1, 1, 1, 1] := rfl
  rw [h]
  decide

end BBTracking
